import Mathlib

/-!
# Verification of the voice-rag-agent session controller

Shallow embedding of the client session controller from
`src/frontend/src/api.js` (the `VoiceRoom` component) and
`src/frontend/src/App.jsx`, together with proofs of the spec's claims
about it.

The controller's mutable React state is modelled as an explicit record
(`ViewState`); each transport event handler becomes a pure state
transformer.  Outcomes of platform operations that the handlers await
(`JSON.parse`, `AudioContext.resume`, `setMicrophoneEnabled`) are passed
in as explicit parameters, `none`/`false` standing for a thrown or
rejected operation.
-/

namespace VoiceRag

/-! ## JavaScript values

A structural model of the JSON values that `JSON.parse` can produce,
used by the `rag_sources` branch of the `DataReceived` handler.
Numbers are modelled as integers (no claim depends on fractional
values); equality is structural, which agrees with JavaScript's
SameValueZero on the primitive values the claims exercise. -/

inductive JsValue where
  | vNull
  | vBool (b : Bool)
  | vNum (n : Int)
  | vStr (s : String)
  | vArr (elems : List JsValue)
  | vObj (fields : List (String × JsValue))

mutual

/-- Structural equality on `JsValue` is decidable (hand-rolled because
`deriving` does not handle the nested occurrence in `vArr`/`vObj`). -/
def JsValue.decEq : (a b : JsValue) → Decidable (a = b)
  | .vNull, .vNull => .isTrue rfl
  | .vBool a, .vBool b =>
      if h : a = b then .isTrue (by rw [h]) else .isFalse (fun he => h (JsValue.vBool.inj he))
  | .vNum a, .vNum b =>
      if h : a = b then .isTrue (by rw [h]) else .isFalse (fun he => h (JsValue.vNum.inj he))
  | .vStr a, .vStr b =>
      if h : a = b then .isTrue (by rw [h]) else .isFalse (fun he => h (JsValue.vStr.inj he))
  | .vArr xs, .vArr ys =>
      match JsValue.decEqList xs ys with
      | .isTrue h => .isTrue (by rw [h])
      | .isFalse h => .isFalse (fun he => h (JsValue.vArr.inj he))
  | .vObj xs, .vObj ys =>
      match JsValue.decEqFields xs ys with
      | .isTrue h => .isTrue (by rw [h])
      | .isFalse h => .isFalse (fun he => h (JsValue.vObj.inj he))
  | .vNull, .vBool _ => .isFalse (fun h => nomatch h)
  | .vNull, .vNum _ => .isFalse (fun h => nomatch h)
  | .vNull, .vStr _ => .isFalse (fun h => nomatch h)
  | .vNull, .vArr _ => .isFalse (fun h => nomatch h)
  | .vNull, .vObj _ => .isFalse (fun h => nomatch h)
  | .vBool _, .vNull => .isFalse (fun h => nomatch h)
  | .vBool _, .vNum _ => .isFalse (fun h => nomatch h)
  | .vBool _, .vStr _ => .isFalse (fun h => nomatch h)
  | .vBool _, .vArr _ => .isFalse (fun h => nomatch h)
  | .vBool _, .vObj _ => .isFalse (fun h => nomatch h)
  | .vNum _, .vNull => .isFalse (fun h => nomatch h)
  | .vNum _, .vBool _ => .isFalse (fun h => nomatch h)
  | .vNum _, .vStr _ => .isFalse (fun h => nomatch h)
  | .vNum _, .vArr _ => .isFalse (fun h => nomatch h)
  | .vNum _, .vObj _ => .isFalse (fun h => nomatch h)
  | .vStr _, .vNull => .isFalse (fun h => nomatch h)
  | .vStr _, .vBool _ => .isFalse (fun h => nomatch h)
  | .vStr _, .vNum _ => .isFalse (fun h => nomatch h)
  | .vStr _, .vArr _ => .isFalse (fun h => nomatch h)
  | .vStr _, .vObj _ => .isFalse (fun h => nomatch h)
  | .vArr _, .vNull => .isFalse (fun h => nomatch h)
  | .vArr _, .vBool _ => .isFalse (fun h => nomatch h)
  | .vArr _, .vNum _ => .isFalse (fun h => nomatch h)
  | .vArr _, .vStr _ => .isFalse (fun h => nomatch h)
  | .vArr _, .vObj _ => .isFalse (fun h => nomatch h)
  | .vObj _, .vNull => .isFalse (fun h => nomatch h)
  | .vObj _, .vBool _ => .isFalse (fun h => nomatch h)
  | .vObj _, .vNum _ => .isFalse (fun h => nomatch h)
  | .vObj _, .vStr _ => .isFalse (fun h => nomatch h)
  | .vObj _, .vArr _ => .isFalse (fun h => nomatch h)

/-- Decidable equality on lists of `JsValue`. -/
def JsValue.decEqList : (a b : List JsValue) → Decidable (a = b)
  | [], [] => .isTrue rfl
  | [], _ :: _ => .isFalse (fun h => nomatch h)
  | _ :: _, [] => .isFalse (fun h => nomatch h)
  | x :: xs, y :: ys =>
      match JsValue.decEq x y, JsValue.decEqList xs ys with
      | .isTrue h1, .isTrue h2 => .isTrue (by rw [h1, h2])
      | .isFalse h1, _ => .isFalse (fun he => h1 (List.head_eq_of_cons_eq he))
      | _, .isFalse h2 => .isFalse (fun he => h2 (List.tail_eq_of_cons_eq he))

/-- Decidable equality on field lists of `JsValue` objects. -/
def JsValue.decEqFields : (a b : List (String × JsValue)) → Decidable (a = b)
  | [], [] => .isTrue rfl
  | [], _ :: _ => .isFalse (fun h => nomatch h)
  | _ :: _, [] => .isFalse (fun h => nomatch h)
  | (k1, v1) :: xs, (k2, v2) :: ys =>
      if hk : k1 = k2 then
        match JsValue.decEq v1 v2, JsValue.decEqFields xs ys with
        | .isTrue h1, .isTrue h2 => .isTrue (by rw [hk, h1, h2])
        | .isFalse h1, _ =>
            .isFalse (fun he => h1 (congrArg Prod.snd (List.head_eq_of_cons_eq he)))
        | _, .isFalse h2 => .isFalse (fun he => h2 (List.tail_eq_of_cons_eq he))
      else .isFalse (fun he => hk (congrArg Prod.fst (List.head_eq_of_cons_eq he)))

end

instance : DecidableEq JsValue := JsValue.decEq

namespace JsValue

/-- JavaScript truthiness: `null`, `false`, `0` and `""` are falsy. -/
def truthy : JsValue → Bool
  | vNull => false
  | vBool b => b
  | vNum n => n != 0
  | vStr s => s != ""
  | vArr _ => true
  | vObj _ => true

end JsValue

/-- First binding of `key` in an object's field list (`JSON.parse` already
collapses duplicate keys, so on its output first = only). -/
def lookupField : List (String × JsValue) → String → Option JsValue
  | [], _ => none
  | (k, v) :: rest, key => if k = key then some v else lookupField rest key

/-- `new Set(x)` / spreading: arrays iterate their elements, strings
iterate their characters (as one-character strings); any other value is
not iterable and the constructor throws a `TypeError` (`none`). -/
def setIterate : JsValue → Option (List JsValue)
  | .vArr xs => some xs
  | .vStr s => some (s.toList.map (fun c => .vStr (String.singleton c)))
  | _ => none

/-- `[...new Set(l)]`: deduplicate keeping the first occurrence of each
element, preserving order. -/
def jsSetDedup (l : List JsValue) : List JsValue :=
  l.foldl (fun acc x => if x ∈ acc then acc else acc ++ [x]) []

/-- The push loop of the `rag_sources` branch:
`for (const src of srcs) if (src && !combined.includes(src)) combined.push(src)`
starting from `combined = [...prev]`. -/
def mergeLoop (prev srcs : List JsValue) : List JsValue :=
  srcs.foldl (fun acc src => if src.truthy = true ∧ src ∉ acc then acc ++ [src] else acc) prev

/-- `combined.slice(-8)`: the last eight elements (all of them when there
are fewer than eight). -/
def sliceLast8 (l : List JsValue) : List JsValue :=
  l.drop (l.length - 8)

/-- The body of the `try` block of the `rag_sources` branch after
`JSON.parse` succeeded: evaluate `[...new Set(data.sources || [])]`,
`none` when a `TypeError` is thrown on the way (property access on
`null`, or spreading a non-iterable). -/
def ragBatch : JsValue → Option (List JsValue)
  | .vNull => none
  | .vObj fields =>
      let srcVal := match lookupField fields "sources" with
        | some v => if v.truthy then v else .vArr []
        | none => .vArr []
      setIterate srcVal
  | _ => some []

/-- The full `rag_sources` branch of the `DataReceived` handler acting on
the current `ragSources` list.  `parsed` is the outcome of
`JSON.parse(text)` (`none` = parse threw).  Any exception inside the
`try` block is caught and leaves the state unchanged. -/
def applyRagMessage (prev : List JsValue) (parsed : Option JsValue) : List JsValue :=
  match parsed with
  | none => prev
  | some data =>
      match ragBatch data with
      | none => prev
      | some elems => sliceLast8 (mergeLoop prev (jsSetDedup elems))

/-! ## Transcript lane -/

/-- JavaScript whitespace as removed by `String.prototype.trim` (the
ASCII part: space, tab, line feed, carriage return, vertical tab, form
feed). -/
def isJsSpace (c : Char) : Bool :=
  c == ' ' || c == '\t' || c == '\n' || c == '\r' || c == '\x0b' || c == '\x0c'

/-- `.trim()`: remove leading and trailing whitespace. -/
def trimChars (l : List Char) : List Char :=
  ((l.dropWhile isJsSpace).reverse.dropWhile isJsSpace).reverse

/-- `s.replace(/^(USER|BOT|AGENT):/, "")`: strip one leading speaker tag
(the three tags are mutually exclusive prefixes, so alternation order
does not matter). -/
def stripTagChars (l : List Char) : List Char :=
  if "USER:".toList.isPrefixOf l then l.drop 5
  else if "BOT:".toList.isPrefixOf l then l.drop 4
  else if "AGENT:".toList.isPrefixOf l then l.drop 6
  else l

/-- The `clean` normalisation of the transcript branch: tag stripped,
then trimmed. -/
def clean (s : String) : String := String.mk (trimChars (stripTagChars s.toList))

/-- The `transcript` branch of the `DataReceived` handler: drop the
message when it is literally the previous entry or when its normalised
form already occurs anywhere in the transcript; otherwise append. -/
def applyTranscriptMessage (prev : List String) (text : String) : List String :=
  if 0 < prev.length ∧ prev.getLast? = some text then prev
  else if prev.any (fun e => clean e == clean text) then prev
  else prev ++ [text]

/-! ## Audio sink registry

The DOM elements with id `audio-<identity>` are modelled as the list of
identities they carry, in document order. -/

/-- `attachAudioTrack`: remove the existing element for that identity
(if any), then create and append a fresh one. -/
def attachSink (sinks : List String) (identity : String) : List String :=
  (sinks.erase identity) ++ [identity]

/-- Removing the element with id `audio-<identity>` (`TrackUnsubscribed`
and `ParticipantDisconnected` handlers); a no-op when absent. -/
def detachSink (sinks : List String) (identity : String) : List String :=
  sinks.erase identity

/-- The three transport events that touch the sink registry. -/
inductive SinkEvent where
  | trackSubscribed (identity : String) (kind : String)
  | trackUnsubscribed (identity : String)
  | participantDisconnected (identity : String)
deriving DecidableEq, Repr

/-- One sink-registry step: `TrackSubscribed` attaches only audio tracks;
the other two detach by identity. -/
def stepSink (sinks : List String) : SinkEvent → List String
  | .trackSubscribed id kind => if kind = "audio" then attachSink sinks id else sinks
  | .trackUnsubscribed id => detachSink sinks id
  | .participantDisconnected id => detachSink sinks id

/-- Run a sequence of sink events from the initial empty document. -/
def runSinkEvents (events : List SinkEvent) : List String :=
  events.foldl stepSink []

/-- `reattachAllAudio`: re-attach every remote participant's subscribed
audio track (given here by the list of their identities). -/
def reattachAll (tracks sinks : List String) : List String :=
  tracks.foldl attachSink sinks

/-! ## The VoiceRoom component state

One record for the component's React state and refs.  `room` is the
`room` state variable (set once `connect` resolves, cleared by
`disconnect`); `roomRefHeld` is whether `roomRef.current` holds the
transport.  `onEndCount` counts invocations of the `onEnd` completion
callback; `roomDisconnectCount` counts calls of the transport's
`disconnect()` through `roomRef` — both counters exist only so the
embedding can observe how often those external effects fire. -/

structure ViewState where
  mounted : Bool
  transcript : List String
  ragSources : List JsValue
  isConnected : Bool
  agentState : String
  micEnabled : Bool
  connectionError : Option String
  sinks : List String
  room : Bool
  roomRefHeld : Bool
  ctxSuspended : Bool
  onEndCount : Nat
  roomDisconnectCount : Nat
deriving DecidableEq

/-- The `DataReceived` handler: guarded by `isMountedRef`, then
dispatches on the topic.  `text` is the decoded payload and `parsed`
the outcome of `JSON.parse(text)` (used only on the `rag_sources`
lane; `none` = the parse threw). -/
def onDataReceived (s : ViewState) (topic text : String) (parsed : Option JsValue) : ViewState :=
  if s.mounted = false then s
  else if topic = "transcript" then
    { s with transcript := applyTranscriptMessage s.transcript text }
  else if topic = "rag_sources" then
    { s with ragSources := applyRagMessage s.ragSources parsed }
  else s

/-- The `RoomEvent.Disconnected` handler. -/
def onDisconnectedEvent (s : ViewState) : ViewState :=
  if s.mounted = false then s
  else { s with isConnected := false, micEnabled := false }

/-- The `RoomEvent.Reconnecting` handler. -/
def onReconnectingEvent (s : ViewState) : ViewState :=
  if s.mounted = false then s
  else { s with isConnected := false, agentState := "initializing" }

/-- `resumeAudioContext`: resume the room's `AudioContext` when it is
suspended; a rejection (`resumeOk = false`) is caught and logged, the
context then stays suspended. -/
def resumeAudioContext (s : ViewState) (resumeOk : Bool) : ViewState :=
  if s.ctxSuspended ∧ resumeOk then { s with ctxSuspended := false } else s

/-- Environment of a `RoomEvent.Reconnected` handler run: the outcomes
of the platform operations it performs. -/
structure ReconnectEnv where
  resumeOk : Bool
  remoteTracks : List String
  micPubPresent : Bool
  micPubMuted : Bool
  micEnableOk : Bool
deriving DecidableEq, Repr

/-- The `RoomEvent.Reconnected` handler: mark connected, resume the
audio context, re-attach every subscribed remote audio track, then —
if the local mic publication exists and is not muted — re-enable the
microphone, a rejection being caught and leaving the flag untouched. -/
def onReconnected (s : ViewState) (env : ReconnectEnv) : ViewState :=
  if s.mounted = false then s
  else
    let s1 := { s with isConnected := true, agentState := "waiting" }
    let s2 := resumeAudioContext s1 env.resumeOk
    let s3 := { s2 with sinks := reattachAll env.remoteTracks s2.sinks }
    if env.micPubPresent ∧ env.micPubMuted = false then
      if env.micEnableOk then { s3 with micEnabled := true } else s3
    else s3

/-- `startMic`: bail out silently when the `room` state is unset;
otherwise resume the audio context, replay paused elements, re-attach
remote audio, then enable the microphone publish — on success set the
flag, on rejection report a non-fatal mic error. -/
def startMic (s : ViewState) (resumeOk : Bool) (remoteTracks : List String)
    (micEnableOk : Bool) (errMsg : String) : ViewState :=
  if s.room = false then s
  else
    let s1 := resumeAudioContext s resumeOk
    let s2 := { s1 with sinks := reattachAll remoteTracks s1.sinks }
    if micEnableOk then { s2 with micEnabled := true }
    else { s2 with connectionError := some ("Mic error: " ++ errMsg) }

/-- `stopMic`: disable the microphone publish; on rejection the flag is
left untouched. -/
def stopMic (s : ViewState) (micDisableOk : Bool) : ViewState :=
  if s.room = false then s
  else if micDisableOk then { s with micEnabled := false }
  else s

/-- `disconnect` (the End Call action): clear the mounted flag, remove
every `audio-` element, disconnect and drop the transport if held,
clear the `room` state and the connected flag, then invoke `onEnd`. -/
def endCall (s : ViewState) : ViewState :=
  { s with mounted := false
           sinks := []
           roomDisconnectCount := s.roomDisconnectCount + (if s.roomRefHeld then 1 else 0)
           roomRefHeld := false
           room := false
           isConnected := false
           onEndCount := s.onEndCount + 1 }

/-- The effect `cleanup` (the unmount callback) has on the modelled
state: clear the mounted flag, remove every `audio-` element, and
disconnect the transport when it is not already disconnected
(`transportActive`). -/
def cleanup (s : ViewState) (transportActive : Bool) : ViewState :=
  { s with mounted := false
           sinks := []
           roomDisconnectCount := s.roomDisconnectCount + (if transportActive then 1 else 0) }

/-! ## Concrete states used by witnesses and counterexamples -/

/-- A live, connected session with the microphone on and one remote
audio sink, as reached after `connect` resolved, the agent joined and
`startMic` succeeded. -/
def connectedState : ViewState :=
  { mounted := true, transcript := [], ragSources := [], isConnected := true,
    agentState := "listening", micEnabled := true, connectionError := none,
    sinks := ["agent"], room := true, roomRefHeld := true, ctxSuspended := false,
    onEndCount := 0, roomDisconnectCount := 0 }

/-- The state while the initial `connect` call is still pending: the
`room` state variable is not yet set. -/
def connectingState : ViewState :=
  { mounted := true, transcript := [], ragSources := [], isConnected := false,
    agentState := "initializing", micEnabled := false, connectionError := none,
    sinks := [], room := false, roomRefHeld := false, ctxSuspended := false,
    onEndCount := 0, roomDisconnectCount := 0 }

/-- A session in the `reconnecting` phase: the `Reconnecting` handler
cleared `isConnected`, but the `room` state variable is still set. -/
def reconnectingState : ViewState :=
  { mounted := true, transcript := [], ragSources := [], isConnected := false,
    agentState := "initializing", micEnabled := false, connectionError := none,
    sinks := ["agent"], room := true, roomRefHeld := true, ctxSuspended := false,
    onEndCount := 0, roomDisconnectCount := 0 }

/-! ## Sink registry lemmas -/

lemma count_attachSink (sinks : List String) (identity a : String)
    (h : sinks.count a ≤ 1) : (attachSink sinks identity).count a ≤ 1 := by
  by_cases hba : identity = a <;>
    simp [attachSink, List.count_append, List.count_erase, List.count_singleton', hba] <;>
    omega

lemma count_stepSink (sinks : List String) (e : SinkEvent) (a : String)
    (h : sinks.count a ≤ 1) : (stepSink sinks e).count a ≤ 1 := by
  cases e with
  | trackSubscribed id kind =>
      by_cases hk : kind = "audio"
      · simpa [stepSink, hk] using count_attachSink sinks id a h
      · simpa [stepSink, hk] using h
  | trackUnsubscribed id =>
      simp only [stepSink, detachSink, List.count_erase]
      omega
  | participantDisconnected id =>
      simp only [stepSink, detachSink, List.count_erase]
      omega

lemma count_runSink (events : List SinkEvent) :
    ∀ sinks, (∀ a, sinks.count a ≤ 1) →
      ∀ a, (events.foldl stepSink sinks).count a ≤ 1 := by
  induction events with
  | nil => intro sinks h a; simpa using h a
  | cons e rest ih =>
      intro sinks h a
      exact ih _ (fun b => count_stepSink _ _ _ (h b)) a

/-- C1: for every sequence of track-subscribed / track-unsubscribed /
participant-leave events on the same participant identity, at most one
live audio sink exists for that identity at any observation point; and
attaching a new audio track for an identity that already holds a sink
first removes the existing sink, so exactly one remains afterwards. -/
theorem sink_uniqueness (events : List SinkEvent) (identity : String) :
    (runSinkEvents events).count identity ≤ 1 ∧
    (attachSink (runSinkEvents events) identity).count identity = 1 := by
  have h : (runSinkEvents events).count identity ≤ 1 :=
    count_runSink events [] (by simp) identity
  refine ⟨h, ?_⟩
  simp [attachSink, List.count_append, List.count_erase, List.count_singleton']
  omega

/-! ## Transcript lemmas -/

/-- C3: appending an utterance whose normalised form (speaker tag
stripped, trimmed) equals the normalised form of any previously-seen
entry — in particular of the immediately preceding one — leaves the
transcript unchanged; otherwise the utterance is appended at the end,
with the existing entries untouched. -/
theorem transcript_dedup (prev : List String) (text : String) :
    ((∃ e ∈ prev, clean e = clean text) → applyTranscriptMessage prev text = prev) ∧
    ((∀ e ∈ prev, clean e ≠ clean text) →
      applyTranscriptMessage prev text = prev ++ [text]) := by
  constructor
  · intro h
    unfold applyTranscriptMessage
    split
    · rfl
    · rw [if_pos]
      rw [List.any_eq_true]
      obtain ⟨e, he, hc⟩ := h
      exact ⟨e, he, by simpa using hc⟩
  · intro h
    unfold applyTranscriptMessage
    rw [if_neg, if_neg]
    · rw [List.any_eq_true]
      rintro ⟨e, he, hc⟩
      exact h e he (by simpa using hc)
    · rintro ⟨hlen, hlast⟩
      have hmem : text ∈ prev := by
        obtain ⟨hne, heq⟩ := List.mem_getLast?_eq_getLast (Option.mem_def.mpr hlast)
        exact heq ▸ List.getLast_mem hne
      exact h text hmem rfl

/-- Witness for `transcript_dedup` at concrete inputs: a re-sent
utterance with a different tag is suppressed, a fresh one is appended. -/
theorem transcript_dedup_witness :
    applyTranscriptMessage ["USER: hi  "] "AGENT:hi" = ["USER: hi  "] ∧
    applyTranscriptMessage ["USER: hi"] "AGENT: yo" = ["USER: hi", "AGENT: yo"] :=
  ⟨(transcript_dedup ["USER: hi  "] "AGENT:hi").1 ⟨"USER: hi  ", by decide, by decide⟩,
   (transcript_dedup ["USER: hi"] "AGENT: yo").2 (by decide)⟩

/-! ## Citation merge lemmas -/

lemma mergeLoop_nil (prev : List JsValue) : mergeLoop prev [] = prev := rfl

lemma mergeLoop_cons (prev : List JsValue) (x : JsValue) (rest : List JsValue) :
    mergeLoop prev (x :: rest) =
      mergeLoop (if x.truthy = true ∧ x ∉ prev then prev ++ [x] else prev) rest := rfl

lemma mergeLoop_nodup : ∀ (srcs prev : List JsValue),
    prev.Nodup → (mergeLoop prev srcs).Nodup := by
  intro srcs
  induction srcs with
  | nil => intro prev h; simpa [mergeLoop_nil] using h
  | cons x rest ih =>
      intro prev h
      rw [mergeLoop_cons]
      by_cases hc : x.truthy = true ∧ x ∉ prev
      · rw [if_pos hc]
        refine ih (prev ++ [x]) ?_
        simp [List.nodup_append, h, hc.2]
      · rw [if_neg hc]
        exact ih prev h

lemma mergeLoop_decomp : ∀ (srcs prev : List JsValue),
    ∃ added, mergeLoop prev srcs = prev ++ added ∧ added.Sublist srcs := by
  intro srcs
  induction srcs with
  | nil => intro prev; exact ⟨[], by simp [mergeLoop_nil], List.nil_sublist _⟩
  | cons x rest ih =>
      intro prev
      rw [mergeLoop_cons]
      by_cases hc : x.truthy = true ∧ x ∉ prev
      · obtain ⟨added, heq, hsub⟩ := ih (prev ++ [x])
        refine ⟨x :: added, ?_, hsub.cons₂ x⟩
        rw [if_pos hc, heq, List.append_assoc, List.singleton_append]
      · obtain ⟨added, heq, hsub⟩ := ih prev
        exact ⟨added, by rw [if_neg hc, heq], hsub.cons x⟩

lemma mem_mergeLoop : ∀ (srcs prev : List JsValue) (x : JsValue),
    x ∈ mergeLoop prev srcs ↔ x ∈ prev ∨ (x ∈ srcs ∧ x.truthy = true) := by
  intro srcs
  induction srcs with
  | nil => intro prev x; simp [mergeLoop_nil]
  | cons y rest ih =>
      intro prev x
      rw [mergeLoop_cons]
      by_cases hc : y.truthy = true ∧ y ∉ prev
      · rw [if_pos hc, ih]
        simp only [List.mem_append, List.mem_singleton, List.mem_cons,
          List.not_mem_nil, or_false]
        constructor
        · rintro ((h | rfl) | ⟨h, ht⟩)
          · exact Or.inl h
          · exact Or.inr ⟨Or.inl rfl, hc.1⟩
          · exact Or.inr ⟨Or.inr h, ht⟩
        · rintro (h | ⟨(rfl | h), ht⟩)
          · exact Or.inl (Or.inl h)
          · exact Or.inl (Or.inr rfl)
          · exact Or.inr ⟨h, ht⟩
      · rw [if_neg hc, ih]
        push_neg at hc
        simp only [List.mem_cons]
        constructor
        · rintro (h | ⟨h, ht⟩)
          · exact Or.inl h
          · exact Or.inr ⟨Or.inr h, ht⟩
        · rintro (h | ⟨(rfl | h), ht⟩)
          · exact Or.inl h
          · exact Or.inl (hc ht)
          · exact Or.inr ⟨h, ht⟩

lemma mem_dedupFold : ∀ (l acc : List JsValue) (x : JsValue),
    (x ∈ l.foldl (fun acc y => if y ∈ acc then acc else acc ++ [y]) acc) ↔
      x ∈ acc ∨ x ∈ l := by
  intro l
  induction l with
  | nil => intro acc x; simp
  | cons y rest ih =>
      intro acc x
      rw [List.foldl_cons]
      by_cases hy : y ∈ acc
      · rw [if_pos hy, ih]
        simp only [List.mem_cons]
        constructor
        · rintro (h | h)
          · exact Or.inl h
          · exact Or.inr (Or.inr h)
        · rintro (h | (rfl | h))
          · exact Or.inl h
          · exact Or.inl hy
          · exact Or.inr h
      · rw [if_neg hy, ih]
        simp only [List.mem_append, List.mem_singleton, List.mem_cons]
        tauto

lemma mem_jsSetDedup (l : List JsValue) (x : JsValue) :
    x ∈ jsSetDedup l ↔ x ∈ l := by
  rw [jsSetDedup, mem_dedupFold]
  simp

lemma sliceLast8_sublist (l : List JsValue) : (sliceLast8 l).Sublist l :=
  List.drop_sublist _ _

lemma length_sliceLast8 (l : List JsValue) : (sliceLast8 l).length ≤ 8 := by
  simp only [sliceLast8, List.length_drop]
  omega

lemma sliceLast8_of_le (l : List JsValue) (h : l.length ≤ 8) : sliceLast8 l = l := by
  simp [sliceLast8, Nat.sub_eq_zero_of_le h]

lemma applyRag_nodup (prev : List JsValue) (parsed : Option JsValue)
    (h : prev.Nodup) : (applyRagMessage prev parsed).Nodup := by
  cases parsed with
  | none => simpa [applyRagMessage] using h
  | some data =>
      cases hb : ragBatch data with
      | none => simpa [applyRagMessage, hb] using h
      | some elems =>
          have h1 : (mergeLoop prev (jsSetDedup elems)).Nodup := mergeLoop_nodup _ _ h
          simpa [applyRagMessage, hb] using h1.sublist (sliceLast8_sublist _)

lemma applyRag_le8 (prev : List JsValue) (parsed : Option JsValue)
    (h : prev.length ≤ 8) : (applyRagMessage prev parsed).length ≤ 8 := by
  cases parsed with
  | none => simpa [applyRagMessage] using h
  | some data =>
      cases hb : ragBatch data with
      | none => simpa [applyRagMessage, hb] using h
      | some elems => simpa [applyRagMessage, hb] using length_sliceLast8 _

lemma foldl_applyRag_inv (msgs : List (Option JsValue)) :
    ∀ s : List JsValue, s.Nodup → s.length ≤ 8 →
      (msgs.foldl applyRagMessage s).Nodup ∧
      (msgs.foldl applyRagMessage s).length ≤ 8 := by
  induction msgs with
  | nil => intro s h1 h2; exact ⟨h1, h2⟩
  | cons p rest ih =>
      intro s h1 h2
      exact ih _ (applyRag_nodup _ _ h1) (applyRag_le8 _ _ h2)

/-- C2: from the empty Citation Set, any sequence of citation messages
leaves the set deduplicated and of length at most 8; one valid batch
appends its fresh identifiers (a subsequence of the deduplicated batch)
after the existing entries and then keeps only the last 8, so the
oldest insertions are evicted first; concretely, merging the 9 distinct
identifiers a..i into the empty set yields b..i. -/
theorem citation_set_merge (msgs : List (Option JsValue)) (prev : List JsValue)
    (data : JsValue) (elems : List JsValue)
    (hnd : prev.Nodup) (hb : ragBatch data = some elems) :
    (msgs.foldl applyRagMessage []).Nodup ∧
    (msgs.foldl applyRagMessage []).length ≤ 8 ∧
    (applyRagMessage prev (some data)).Nodup ∧
    (∃ added, added.Sublist (jsSetDedup elems) ∧
      applyRagMessage prev (some data) = sliceLast8 (prev ++ added)) ∧
    applyRagMessage []
        (some (.vObj [("sources",
          .vArr (["a","b","c","d","e","f","g","h","i"].map JsValue.vStr))]))
      = ["b","c","d","e","f","g","h","i"].map JsValue.vStr := by
  obtain ⟨hn, hl⟩ := foldl_applyRag_inv msgs [] (by simp) (by simp)
  refine ⟨hn, hl, applyRag_nodup _ _ hnd, ?_, by decide⟩
  obtain ⟨added, heq, hsub⟩ := mergeLoop_decomp (jsSetDedup elems) prev
  exact ⟨added, hsub, by simp [applyRagMessage, hb, heq]⟩

/-- Witness for `citation_set_merge` at concrete inputs. -/
theorem citation_set_merge_witness :
    applyRagMessage []
        (some (.vObj [("sources",
          .vArr (["a","b","c","d","e","f","g","h","i"].map JsValue.vStr))]))
      = ["b","c","d","e","f","g","h","i"].map JsValue.vStr :=
  (citation_set_merge [] [] (.vObj [("sources", .vArr [])]) []
    (by simp) (by decide)).2.2.2.2

/-- C4 counterexample: a citations message whose `sources` field is the
JSON string `"ab"` is not of the shape `\x7b "sources": [string, ...] \x7d`,
yet processing it does not leave the Citation Set unchanged: spreading
`new Set("ab")` iterates the string's characters and pushes them. -/
theorem malformed_citation_mutates_cex :
    applyRagMessage [] (some (.vObj [("sources", .vStr "ab")]))
      = [JsValue.vStr "a", JsValue.vStr "b"] ∧
    applyRagMessage [] (some (.vObj [("sources", .vStr "ab")])) ≠ [] := by
  refine ⟨by decide, by decide⟩

/-- C4 (amended): a citations message whose body fails to parse as
JSON, or parses to `null`, to a non-object, or to an object whose
`sources` field is absent, falsy, or a truthy non-iterable (a number, a
boolean), leaves the Citation Set unchanged and does not throw out of
the handler; an object whose `sources` field is a non-empty string,
however, is iterated character-wise (see
`malformed_citation_mutates_cex`). -/
theorem malformed_citation_dropped (prev : List JsValue)
    (fields : List (String × JsValue)) (n : Int) (b : Bool)
    (hlen : prev.length ≤ 8) :
    applyRagMessage prev none = prev ∧
    applyRagMessage prev (some .vNull) = prev ∧
    (lookupField fields "sources" = none →
      applyRagMessage prev (some (.vObj fields)) = prev) ∧
    applyRagMessage prev (some (.vObj [("sources", .vNum n)])) = prev ∧
    applyRagMessage prev (some (.vObj [("sources", .vBool b)])) = prev ∧
    applyRagMessage prev (some (.vNum n)) = prev ∧
    applyRagMessage prev (some (.vStr "nonsense")) = prev := by
  have hslice := sliceLast8_of_le prev hlen
  refine ⟨rfl, rfl, ?_, ?_, ?_, ?_, ?_⟩
  · intro h
    simp [applyRagMessage, ragBatch, h, setIterate, jsSetDedup, mergeLoop_nil, hslice]
  · by_cases hn : n = 0
    · subst hn
      simp [applyRagMessage, ragBatch, lookupField, setIterate, JsValue.truthy,
        jsSetDedup, mergeLoop_nil, hslice]
    · have ht : (n != 0) = true := by simpa using hn
      simp [applyRagMessage, ragBatch, lookupField, setIterate, JsValue.truthy, ht]
  · cases b
    · simp [applyRagMessage, ragBatch, lookupField, setIterate, JsValue.truthy,
        jsSetDedup, mergeLoop_nil, hslice]
    · simp [applyRagMessage, ragBatch, lookupField, setIterate, JsValue.truthy]
  · simp [applyRagMessage, ragBatch, jsSetDedup, mergeLoop_nil, hslice]
  · simp [applyRagMessage, ragBatch, jsSetDedup, mergeLoop_nil, hslice]

/-- Witness for `malformed_citation_dropped`: a non-JSON body leaves a
one-entry Citation Set untouched. -/
theorem malformed_citation_dropped_witness :
    applyRagMessage [JsValue.vStr "doc.pdf"] none = [JsValue.vStr "doc.pdf"] :=
  (malformed_citation_dropped [JsValue.vStr "doc.pdf"] [] 0 false (by decide)).1

/-- C10: inside a valid citations batch a falsy identifier — the empty
string — is skipped and never enters the Citation Set, while the
truthy identifiers of the same batch are merged normally (an element
ends up in the merged pool exactly when it was already present or is a
truthy member of the batch). -/
theorem citation_falsy_skipped (prev srcs : List JsValue)
    (hne : JsValue.vStr "" ∉ prev) :
    JsValue.vStr "" ∉ applyRagMessage prev (some (.vObj [("sources", .vArr srcs)])) ∧
    (∀ x, x ∈ mergeLoop prev (jsSetDedup srcs) ↔
      x ∈ prev ∨ (x ∈ srcs ∧ x.truthy = true)) ∧
    applyRagMessage []
        (some (.vObj [("sources", .vArr [.vStr "", .vStr "a", .vStr "", .vStr "b"])]))
      = [JsValue.vStr "a", JsValue.vStr "b"] := by
  have hmem : ∀ x, x ∈ mergeLoop prev (jsSetDedup srcs) ↔
      x ∈ prev ∨ (x ∈ srcs ∧ x.truthy = true) := by
    intro x
    rw [mem_mergeLoop]
    simp [mem_jsSetDedup]
  refine ⟨?_, hmem, by decide⟩
  have happ : applyRagMessage prev (some (.vObj [("sources", .vArr srcs)]))
      = sliceLast8 (mergeLoop prev (jsSetDedup srcs)) := rfl
  rw [happ]
  intro hcontra
  have h1 : JsValue.vStr "" ∈ mergeLoop prev (jsSetDedup srcs) :=
    (sliceLast8_sublist _).subset hcontra
  rcases (hmem _).mp h1 with h | ⟨_, ht⟩
  · exact hne h
  · simp [JsValue.truthy] at ht

/-- Witness for `citation_falsy_skipped` at concrete inputs. -/
theorem citation_falsy_skipped_witness :
    applyRagMessage []
        (some (.vObj [("sources", .vArr [.vStr "", .vStr "a", .vStr "", .vStr "b"])]))
      = [JsValue.vStr "a", JsValue.vStr "b"] :=
  (citation_falsy_skipped [] [] (by simp)).2.2

/-! ## Teardown and lifecycle theorems -/

/-- C5 counterexample: calling end-call twice invokes the `onEnd`
completion callback twice — `disconnect` calls `onEnd?.()`
unconditionally on every invocation — refuting the claim that the
completion callback is not double-invoked. -/
theorem end_call_double_callback_cex :
    (endCall (endCall connectedState)).onEndCount = 2 ∧
    (endCall connectedState).onEndCount = 1 :=
  ⟨rfl, rfl⟩

/-- C5 (amended): end-call always succeeds and is idempotent on the
session's resources — a second call, or one after a terminal
disconnect, produces no error, finds no sinks left to release, and
does not release the transport handle a second time — but the
completion callback is invoked once per call, so two end-calls invoke
it twice (the owner's handler merely clears the connection, which is
idempotent in effect). -/
theorem end_call_idempotent (s : ViewState) :
    (endCall s).sinks = [] ∧
    (endCall (endCall s)).sinks = [] ∧
    (endCall s).roomRefHeld = false ∧
    (endCall s).roomDisconnectCount
      = s.roomDisconnectCount + (if s.roomRefHeld then 1 else 0) ∧
    (endCall (endCall s)).roomDisconnectCount = (endCall s).roomDisconnectCount ∧
    (endCall (onDisconnectedEvent s)).roomDisconnectCount
      = s.roomDisconnectCount + (if s.roomRefHeld then 1 else 0) ∧
    (endCall (endCall s)).onEndCount = s.onEndCount + 2 := by
  cases hm : s.mounted <;> simp [endCall, onDisconnectedEvent, hm]

/-- C6 counterexample: while reconnecting — `isConnected` is false but
the `room` handle is still set — the mic-enable action proceeds and
mutates the mic-enabled flag; while connecting — no `room` handle yet —
it is a silent no-op: no NotReady error is reported and the state,
including `connectionError`, is completely unchanged. -/
theorem mic_gating_cex :
    (startMic reconnectingState true [] true "").micEnabled = true ∧
    startMic connectingState true [] true "" = connectingState ∧
    (startMic connectingState true [] true "").connectionError = none :=
  ⟨rfl, rfl, rfl⟩

/-- C6 (amended): the mic-enable action is gated only on the presence
of the `room` handle, not on the lifecycle state: with no handle
(connecting, or after end-call) it silently no-ops — no throw, no
mutation of the flag, but also no NotReady error reported; with a
handle (connected, but equally reconnecting or after a
transport-initiated disconnect) it proceeds: on success the flag is
set, and a rejected enable is reported as a non-fatal mic error with
the flag unchanged. -/
theorem mic_gating (s : ViewState) (resumeOk : Bool) (tracks : List String)
    (ok : Bool) (msg : String) :
    (s.room = false → startMic s resumeOk tracks ok msg = s) ∧
    (s.room = true → ok = true →
      (startMic s resumeOk tracks ok msg).micEnabled = true) ∧
    (s.room = true → ok = false →
      (startMic s resumeOk tracks ok msg).micEnabled = s.micEnabled ∧
      (startMic s resumeOk tracks ok msg).connectionError
        = some ("Mic error: " ++ msg)) := by
  refine ⟨?_, ?_, ?_⟩
  · intro h
    simp [startMic, h]
  · intro h hok
    cases hcs : s.ctxSuspended <;> cases resumeOk <;>
      simp [startMic, resumeAudioContext, h, hok, hcs]
  · intro h hok
    cases hcs : s.ctxSuspended <;> cases resumeOk <;>
      simp [startMic, resumeAudioContext, h, hok, hcs]

/-- Witness for `mic_gating` at concrete inputs. -/
theorem mic_gating_witness :
    startMic connectingState false ["agent"] true "" = connectingState ∧
    (startMic connectedState true [] false "boom").connectionError
      = some ("Mic error: " ++ "boom") :=
  ⟨(mic_gating connectingState false ["agent"] true "").1 rfl,
   ((mic_gating connectedState true [] false "boom").2.2 rfl rfl).2⟩

/-- C7: on a reconnecting-to-connected transition the recovery sequence
runs: the session is re-marked connected (a failing step never forces a
disconnect), the audio context ends up resumed exactly when it was
suspended and the resume succeeded (a rejection is absorbed), every
currently-subscribed remote audio producer is re-attached regardless of
the resume outcome, and when the local publish exists, is not muted and
the re-enable succeeds, the mic-enabled flag is true afterwards without
a new explicit enable call; a previously-enabled mic is never turned
off by recovery, so a failing re-enable is absorbed without undoing the
earlier steps. -/
theorem reconnect_recovery (s : ViewState) (env : ReconnectEnv)
    (hm : s.mounted = true) :
    (onReconnected s env).isConnected = true ∧
    (onReconnected s env).ctxSuspended = (s.ctxSuspended && !env.resumeOk) ∧
    (onReconnected s env).sinks = reattachAll env.remoteTracks s.sinks ∧
    (env.micPubPresent = true → env.micPubMuted = false →
      env.micEnableOk = true → (onReconnected s env).micEnabled = true) ∧
    (s.micEnabled = true → (onReconnected s env).micEnabled = true) := by
  cases hcs : s.ctxSuspended <;> cases hro : env.resumeOk <;>
    cases hpp : env.micPubPresent <;> cases hpm : env.micPubMuted <;>
    cases hok : env.micEnableOk <;>
    simp [onReconnected, resumeAudioContext, hm, hcs, hro, hpp, hpm, hok]

/-- Witness for `reconnect_recovery`: recovery after an interruption
re-arms the previously-enabled microphone. -/
theorem reconnect_recovery_witness :
    (onReconnected reconnectingState
      { resumeOk := true, remoteTracks := ["agent"], micPubPresent := true,
        micPubMuted := false, micEnableOk := true }).micEnabled = true :=
  (reconnect_recovery reconnectingState
    { resumeOk := true, remoteTracks := ["agent"], micPubPresent := true,
      micPubMuted := false, micEnableOk := true } rfl).2.2.2.1 rfl rfl rfl

/-- C8: once teardown has begun — end-call or unmount cleanup — no
inbound message on either lane mutates the transcript or the Citation
Set: the `DataReceived` continuation checks the mounted guard before
touching state, and both teardown paths clear that guard, so the state
after teardown absorbs every message unchanged. -/
theorem no_mutation_after_teardown (s : ViewState) (b : Bool)
    (topic text : String) (parsed : Option JsValue) :
    onDataReceived (endCall s) topic text parsed = endCall s ∧
    onDataReceived (cleanup s b) topic text parsed = cleanup s b ∧
    (s.mounted = false → onDataReceived s topic text parsed = s) := by
  refine ⟨?_, ?_, ?_⟩
  · simp [onDataReceived, endCall]
  · simp [onDataReceived, cleanup]
  · intro h
    simp [onDataReceived, h]

/-- Witness for `no_mutation_after_teardown`: a transcript message
arriving after end-call is absorbed. -/
theorem no_mutation_after_teardown_witness :
    onDataReceived (endCall connectedState) "transcript" "USER: hi" none
      = endCall connectedState :=
  (no_mutation_after_teardown (endCall connectedState) true
    "transcript" "USER: hi" none).2.2 rfl

/-- C9 counterexample: when the terminal `Disconnected` event is
delivered after end-call already ran, the handler's mounted guard skips
it, and the mic-enabled flag — which `disconnect` never clears — still
reads true after the terminal disconnect, refuting the claim that the
view-state always shows the mic disabled after a terminal disconnect. -/
theorem mic_flag_after_disconnect_cex :
    (onDisconnectedEvent (endCall connectedState)).micEnabled = true :=
  rfl

/-- C9 (amended): a terminal `Disconnected` event processed while the
component is still mounted clears the mic-enabled flag (and the
connected flag); if teardown already cleared the mounted guard the
handler is skipped and the flag keeps whatever value it had. -/
theorem mic_flag_cleared_on_disconnect (s : ViewState) (hm : s.mounted = true) :
    (onDisconnectedEvent s).micEnabled = false ∧
    (onDisconnectedEvent s).isConnected = false := by
  simp [onDisconnectedEvent, hm]

/-- Witness for `mic_flag_cleared_on_disconnect` at a concrete state. -/
theorem mic_flag_cleared_on_disconnect_witness :
    (onDisconnectedEvent connectedState).micEnabled = false :=
  (mic_flag_cleared_on_disconnect connectedState rfl).1

end VoiceRag
